import Mathlib

/-!
Verification development for the devtools command/response bridge
(tools/devtools.py): a controller that drives a running game-engine
process through a file-based mailbox (command file, result file, log file).

The embedding translates the Python source into Lean:
  - Python values that flow through the bridge become the inductive `PyVal`
    (floats are modelled by their exact decimal value as a rational; the
    non-finite extensions Infinity and NaN, and float repr, are outside the
    model since no behaviour under verification touches them);
  - `json.loads` becomes `jsonLoads`, a strict RFC-style parser matching the
    Python json module on finite values (strings reject raw control
    characters; surrogate escapes are not representable and are rejected);
  - `int(...)` and `float(...)` string conversion become `pyInt` / `pyFloat`;
  - the filesystem is modelled by the contents of the single result file
    (`Option String`), and real time by a list of poll ticks, each tick
    optionally carrying a responder write to the result file;
  - `print` and `sys.exit` become the pure record `CmdOutput`; an uncaught
    exception becomes the `Except.error` branch.
-/

namespace DevTools

/-- A Python value as it appears in the bridge: the image of JSON plus the
results of int/float string conversion. Floats carry their exact decimal
value as a rational. -/
inductive PyVal where
  | none
  | bool (b : Bool)
  | int (n : Int)
  | float (q : ℚ)
  | str (s : String)
  | list (xs : List PyVal)
  | dict (entries : List (String × PyVal))

/-! ### Character-level helpers shared by the parsers -/

/-- JSON whitespace, as accepted between tokens by the Python json module. -/
def isJsonWs (c : Char) : Bool :=
  c == ' ' || c == '\t' || c == '\n' || c == '\r'

/-- Whitespace stripped by Python str.strip (ASCII fragment). -/
def isPySpace (c : Char) : Bool :=
  c == ' ' || c == '\t' || c == '\n' || c == '\r' || c == '\x0b' || c == '\x0c'

/-- Drop leading JSON whitespace. -/
def wsDrop (cs : List Char) : List Char :=
  cs.dropWhile isJsonWs

/-- Python str.strip on a character list: remove leading and trailing whitespace. -/
def stripWsList (cs : List Char) : List Char :=
  ((cs.dropWhile isPySpace).reverse.dropWhile isPySpace).reverse

/-- Python str.strip for strings. -/
def pyStrip (s : String) : String :=
  String.mk (stripWsList s.toList)

def isDigitCh (c : Char) : Bool := '0' ≤ c && c ≤ '9'

def digitValue (c : Char) : Nat := c.toNat - '0'.toNat

/-- Numeric value of a run of decimal digits. -/
def digitRunToNat (ds : List Char) : Nat :=
  ds.foldl (fun a c => a * 10 + digitValue c) 0

/-- Split off the longest leading run of decimal digits. -/
def splitDigits (cs : List Char) : List Char × List Char :=
  (cs.takeWhile isDigitCh, cs.dropWhile isDigitCh)

/-- Value of one hexadecimal digit, if it is one. -/
def hexDigitValue (c : Char) : Option Nat :=
  if '0' ≤ c && c ≤ '9' then Option.some (c.toNat - '0'.toNat)
  else if 'a' ≤ c && c ≤ 'f' then Option.some (c.toNat - 'a'.toNat + 10)
  else if 'A' ≤ c && c ≤ 'F' then Option.some (c.toNat - 'A'.toNat + 10)
  else Option.none

/-- The exact rational m * 10 ^ e. -/
def scaleByPow10 (m : Int) (e : Int) : ℚ :=
  if 0 ≤ e then (m : ℚ) * (10 : ℚ) ^ e.toNat
  else (m : ℚ) / (10 : ℚ) ^ (-e).toNat

/-! ### The JSON parser (model of json.loads) -/

/-- Body of a JSON string after the opening quote. Returns the decoded
characters and the input remaining after the closing quote. Raw control
characters are rejected (strict mode, the json.loads default); escapes
follow the JSON grammar; \u escapes in the surrogate range are rejected
(not representable as a Lean character, and unused by the bridge). -/
def jsonStringBody : List Char → Option (List Char × List Char)
  | [] => Option.none
  | '"' :: rest => Option.some ([], rest)
  | '\\' :: 'u' :: h1 :: h2 :: h3 :: h4 :: rest =>
    (match hexDigitValue h1, hexDigitValue h2, hexDigitValue h3, hexDigitValue h4 with
     | Option.some a, Option.some b, Option.some c, Option.some d =>
       let code := ((a * 16 + b) * 16 + c) * 16 + d
       if 0xD800 ≤ code && code < 0xE000 then Option.none
       else
         match jsonStringBody rest with
         | Option.some (cs, r) => Option.some (Char.ofNat code :: cs, r)
         | Option.none => Option.none
     | _, _, _, _ => Option.none)
  | '\\' :: e :: rest =>
    (match
       (if e == '"' then Option.some '"'
        else if e == '\\' then Option.some '\\'
        else if e == '/' then Option.some '/'
        else if e == 'b' then Option.some (Char.ofNat 8)
        else if e == 'f' then Option.some (Char.ofNat 12)
        else if e == 'n' then Option.some '\n'
        else if e == 'r' then Option.some '\r'
        else if e == 't' then Option.some '\t'
        else Option.none : Option Char) with
     | Option.some ch =>
       match jsonStringBody rest with
       | Option.some (cs, r) => Option.some (ch :: cs, r)
       | Option.none => Option.none
     | Option.none => Option.none)
  | c :: rest =>
    if c.toNat < 0x20 then Option.none
    else
      match jsonStringBody rest with
      | Option.some (cs, r) => Option.some (c :: cs, r)
      | Option.none => Option.none

/-- A JSON number starting at the head of the input: optional minus, an
integer part that is 0 or starts with a nonzero digit, optional fraction,
optional exponent. Yields a Python int when there is neither fraction nor
exponent, a Python float otherwise, exactly as json.loads does. -/
def jsonNumber (cs : List Char) : Option (PyVal × List Char) :=
  let (neg, cs1) := match cs with
    | '-' :: r => (true, r)
    | _ => (false, cs)
  match cs1 with
  | [] => Option.none
  | d :: _ =>
    if !isDigitCh d then Option.none
    else
      let (intDs, r1) :=
        if d == '0' then ([d], cs1.tail)
        else splitDigits cs1
      let (fracDs, r2) := match r1 with
        | '.' :: rr =>
          let (ds, r) := splitDigits rr
          if ds.isEmpty then ([], r1) else (ds, r)
        | _ => ([], r1)
      -- a dot with no digits after it is not part of the number; json then
      -- fails on the leftover dot, which the callers of this function detect
      let fracOk := match r2 with
        | '.' :: _ => false
        | _ => true
      if !fracOk then Option.none
      else
        let (hasExp, expNeg, expDs, r3) := match r2 with
          | 'e' :: rr | 'E' :: rr =>
            let (es, rr1) := match rr with
              | '+' :: t => (false, t)
              | '-' :: t => (true, t)
              | _ => (false, rr)
            let (ds, r) := splitDigits rr1
            if ds.isEmpty then (false, false, ([] : List Char), r2)
            else (true, es, ds, r)
          | _ => (false, false, ([] : List Char), r2)
        let expBad := match r3 with
          | 'e' :: _ => true
          | 'E' :: _ => true
          | _ => false
        if expBad then Option.none
        else
          let mantissa : Int :=
            let n : Int := (digitRunToNat (intDs ++ fracDs) : Int)
            if neg then -n else n
          if fracDs.isEmpty && !hasExp then
            Option.some (PyVal.int mantissa, r3)
          else
            let e : Int :=
              (if expNeg then -(digitRunToNat expDs : Int) else (digitRunToNat expDs : Int))
                - (fracDs.length : Int)
            Option.some (PyVal.float (scaleByPow10 mantissa e), r3)

mutual

/-- One JSON value at the head of the input (after optional whitespace),
driven by a fuel counter for termination. -/
def jsonValue : Nat → List Char → Option (PyVal × List Char)
  | 0, _ => Option.none
  | Nat.succ fuel, cs =>
    match wsDrop cs with
    | [] => Option.none
    | c :: rest =>
      if c == '"' then
        match jsonStringBody rest with
        | Option.some (body, r) => Option.some (PyVal.str (String.mk body), r)
        | Option.none => Option.none
      else if c == '{' then
        match wsDrop rest with
        | '}' :: r => Option.some (PyVal.dict [], r)
        | inner => jsonMembers fuel inner
      else if c == '[' then
        match wsDrop rest with
        | ']' :: r => Option.some (PyVal.list [], r)
        | inner => jsonElements fuel inner
      else if c == 't' then
        match rest with
        | 'r' :: 'u' :: 'e' :: r => Option.some (PyVal.bool true, r)
        | _ => Option.none
      else if c == 'f' then
        match rest with
        | 'a' :: 'l' :: 's' :: 'e' :: r => Option.some (PyVal.bool false, r)
        | _ => Option.none
      else if c == 'n' then
        match rest with
        | 'u' :: 'l' :: 'l' :: r => Option.some (PyVal.none, r)
        | _ => Option.none
      else if c == '-' || isDigitCh c then
        jsonNumber (c :: rest)
      else Option.none

/-- The members of a JSON object, positioned at the first key (whitespace
already consumed); consumes through the closing brace. -/
def jsonMembers : Nat → List Char → Option (PyVal × List Char)
  | 0, _ => Option.none
  | Nat.succ fuel, cs =>
    match cs with
    | '"' :: kr =>
      (match jsonStringBody kr with
       | Option.some (keyChars, r1) =>
         (match wsDrop r1 with
          | ':' :: r2 =>
            (match jsonValue fuel r2 with
             | Option.some (v, r3) =>
               (match wsDrop r3 with
                | ',' :: r4 =>
                  (match jsonMembers fuel (wsDrop r4) with
                   | Option.some (PyVal.dict more, r5) =>
                     Option.some (PyVal.dict ((String.mk keyChars, v) :: more), r5)
                   | _ => Option.none)
                | '}' :: r4 => Option.some (PyVal.dict [(String.mk keyChars, v)], r4)
                | _ => Option.none)
             | Option.none => Option.none)
          | _ => Option.none)
       | Option.none => Option.none)
    | _ => Option.none

/-- The elements of a JSON array, positioned at the first element; consumes
through the closing bracket. -/
def jsonElements : Nat → List Char → Option (PyVal × List Char)
  | 0, _ => Option.none
  | Nat.succ fuel, cs =>
    match jsonValue fuel cs with
    | Option.some (v, r1) =>
      (match wsDrop r1 with
       | ',' :: r2 =>
         (match jsonElements fuel r2 with
          | Option.some (PyVal.list more, r3) => Option.some (PyVal.list (v :: more), r3)
          | _ => Option.none)
       | ']' :: r2 => Option.some (PyVal.list [v], r2)
       | _ => Option.none)
    | Option.none => Option.none

end

/-- Model of json.loads: parse one JSON value and require that nothing but
whitespace remains. Returns the parsed value, or nothing on any decode
error (the JSONDecodeError cases of the Python module). -/
def jsonLoads (s : String) : Option PyVal :=
  let cs := s.toList
  match jsonValue (2 * cs.length + 2) cs with
  | Option.some (v, rest) =>
    if (wsDrop rest).isEmpty then Option.some v else Option.none
  | Option.none => Option.none

/-! ### Python int(...) and float(...) string conversion -/

/-- Digits possibly separated by single underscores, as accepted inside a
Python int literal string; consumes the whole input or fails. -/
def underscoreDigits : List Char → Option (List Char)
  | [] => Option.some []
  | '_' :: c :: rest =>
    if isDigitCh c then
      match underscoreDigits rest with
      | Option.some ds => Option.some (c :: ds)
      | Option.none => Option.none
    else Option.none
  | '_' :: [] => Option.none
  | c :: rest =>
    if isDigitCh c then
      match underscoreDigits rest with
      | Option.some ds => Option.some (c :: ds)
      | Option.none => Option.none
    else Option.none

/-- Model of the Python int constructor on a string: surrounding whitespace,
an optional sign, then decimal digits with optional single underscore
separators. -/
def pyInt (s : String) : Option Int :=
  match stripWsList s.toList with
  | [] => Option.none
  | cs =>
    let (neg, cs1) := match cs with
      | '+' :: r => (false, r)
      | '-' :: r => (true, r)
      | _ => (false, cs)
    match cs1 with
    | [] => Option.none
    | c :: _ =>
      if !isDigitCh c then Option.none
      else
        match underscoreDigits cs1 with
        | Option.some ds =>
          let n : Int := (digitRunToNat ds : Int)
          Option.some (if neg then -n else n)
        | Option.none => Option.none

/-- Model of the Python float constructor on a string, for finite decimal
inputs: surrounding whitespace, optional sign, digits with an optional
fractional part (at least one digit on either side of the dot), and an
optional decimal exponent. The special spellings inf and nan, and digit
underscores, are outside the model; no bridge behaviour under verification
reaches them. -/
def pyFloat (s : String) : Option ℚ :=
  let cs := stripWsList s.toList
  let (neg, cs1) := match cs with
    | '+' :: r => (false, r)
    | '-' :: r => (true, r)
    | _ => (false, cs)
  let (intDs, r1) := splitDigits cs1
  let (fracDs, r2) := match r1 with
    | '.' :: rr => splitDigits rr
    | _ => ([], r1)
  if intDs.isEmpty && fracDs.isEmpty then Option.none
  else
    let mantissa : Int :=
      let n : Int := (digitRunToNat (intDs ++ fracDs) : Int)
      if neg then -n else n
    match r2 with
    | [] => Option.some (scaleByPow10 mantissa (-(fracDs.length : Int)))
    | e :: rr =>
      if e == 'e' || e == 'E' then
        let (expNeg, rr1) := match rr with
          | '+' :: t => (false, t)
          | '-' :: t => (true, t)
          | _ => (false, rr)
        let (expDs, rr2) := splitDigits rr1
        if expDs.isEmpty || !rr2.isEmpty then Option.none
        else
          let ev : Int :=
            (if expNeg then -(digitRunToNat expDs : Int) else (digitRunToNat expDs : Int))
              - (fracDs.length : Int)
          Option.some (scaleByPow10 mantissa ev)
      else Option.none

/-- Value coercion performed by cmd_set_state on the user-supplied property
value string: try json.loads, then int, then float, and keep the original
string when all three fail. -/
def coerceValue (s : String) : PyVal :=
  match jsonLoads s with
  | Option.some v => v
  | Option.none =>
    match pyInt s with
    | Option.some n => PyVal.int n
    | Option.none =>
      match pyFloat s with
      | Option.some q => PyVal.float q
      | Option.none => PyVal.str s

/-! ### Python runtime helpers used by the facade commands -/

/-- Python truthiness of a bridge value. -/
def truthy : PyVal → Bool
  | PyVal.none => false
  | PyVal.bool b => b
  | PyVal.int n => n != 0
  | PyVal.float q => q != 0
  | PyVal.str s => s != ""
  | PyVal.list xs => !xs.isEmpty
  | PyVal.dict es => !es.isEmpty

/-- Python str conversion, as applied inside f-strings. Exact on the scalar
values the facade prints; container and float reprs are only sketched, since
no verified behaviour observes them. -/
def pyStr : PyVal → String
  | PyVal.none => "None"
  | PyVal.bool true => "True"
  | PyVal.bool false => "False"
  | PyVal.int n => toString n
  | PyVal.float q => toString q
  | PyVal.str s => s
  | PyVal.list _ => "[...]"
  | PyVal.dict _ => "\x7b...\x7d"

/-- Python subscription value[key] for a string key: a KeyError on a missing
key, a TypeError on a non-dict value. With duplicate keys (possible in the
assoc-list model after parsing) the last wins, as in a Python dict built by
repeated assignment. -/
def pyGet (v : PyVal) (k : String) : Except String PyVal :=
  match v with
  | PyVal.dict entries =>
    (match entries.reverse.find? (fun p => p.1 == k) with
     | Option.some p => Except.ok p.2
     | Option.none => Except.error ("KeyError: " ++ k))
  | _ => Except.error ("TypeError: value is not subscriptable with key " ++ k)

/-- Python dict.get(key, default): the default on a missing key, an
AttributeError on a non-dict value. -/
def pyGetD (v : PyVal) (k : String) (dflt : PyVal) : Except String PyVal :=
  match v with
  | PyVal.dict entries =>
    (match entries.reverse.find? (fun p => p.1 == k) with
     | Option.some p => Except.ok p.2
     | Option.none => Except.ok dflt)
  | _ => Except.error "AttributeError: value has no attribute get"

/-- Whether a dict value carries the given key. -/
def dictHasKey (v : PyVal) (k : String) : Bool :=
  match v with
  | PyVal.dict entries => entries.any (fun p => p.1 == k)
  | _ => false

/-- Python `a or b` for an optional argument defaulting to a given value:
the argument when it is present and truthy, the default otherwise. -/
def pyOr (a : Option PyVal) (dflt : PyVal) : PyVal :=
  match a with
  | Option.some v => if truthy v then v else dflt
  | Option.none => dflt

/-! ### Substring containment (Python `needle in haystack`) -/

/-- Whether the first list is a prefix of the second. -/
def listStartsWith : List Char → List Char → Bool
  | [], _ => true
  | _ :: _, [] => false
  | a :: as_, b :: bs => a == b && listStartsWith as_ bs

/-- Whether the needle occurs contiguously inside the haystack. -/
def listOccursIn (needle : List Char) : List Char → Bool
  | [] => needle.isEmpty
  | c :: t => listStartsWith needle (c :: t) || listOccursIn needle t

/-- Python substring containment, needle in haystack. -/
def strOccursIn (needle haystack : String) : Bool :=
  listOccursIn needle.toList haystack.toList

/-! ### The correlation channel: send_command

The mailbox result file is modelled by its contents (`Option String`,
nothing when the file does not exist). Wall-clock time is modelled by a
list of poll ticks: each tick optionally carries a responder write to the
result file, and the list ending models the timeout deadline passing. The
numeric timeout only reaches the code through the error message, so it is
carried as the string Python would interpolate. -/

/-- The result-file state after a tick: a responder write replaces the file,
otherwise it is unchanged. -/
def applyWrite (res : Option String) (ev : Option String) : Option String :=
  match ev with
  | Option.some s => Option.some s
  | Option.none => res

/-- The message of the TimeoutError raised when no parseable result appears
(devtools.py line 90). -/
def timeoutMessage (timeoutStr : String) : String :=
  "No response from Godot after " ++ timeoutStr ++ "s. Is the game running with DevTools?"

/-- Outcome of one send_command call: a parsed result, or the timeout error. -/
inductive Outcome where
  | success (v : PyVal)
  | timeoutErr (msg : String)

/-- The polling loop of send_command (lines 79 to 90): on each tick, after
any responder write lands, a present result file is read and parsed; valid
JSON is consumed (the file deleted) and returned; a parse failure leaves the
file in place and polling continues; when the ticks run out the TimeoutError
is raised. Returns the outcome and the final result-file state. -/
def pollForResult (timeoutStr : String) :
    List (Option String) → Option String → Outcome × Option String
  | [], res => (Outcome.timeoutErr (timeoutMessage timeoutStr), res)
  | ev :: rest, res =>
    match applyWrite res ev with
    | Option.none => pollForResult timeoutStr rest Option.none
    | Option.some s =>
      match jsonLoads s with
      | Option.some v => (Outcome.success v, Option.none)
      | Option.none => pollForResult timeoutStr rest (Option.some s)

/-- Clearing of a stale result before publishing (lines 71 to 72): whatever
the result file held, it no longer exists afterwards. -/
def clearStaleResult (res : Option String) : Option String :=
  match res with
  | Option.some _ => Option.none
  | Option.none => Option.none

/-- The command record written to the command file (line 75):
action together with args-or-empty-dict. -/
def mkCommand (action : String) (args : Option PyVal) : PyVal :=
  PyVal.dict [("action", PyVal.str action), ("args", pyOr args (PyVal.dict []))]

/-- What one send_command call produces in the model: the command it
published, the call outcome, and the final result-file state. -/
structure SendResult where
  command : PyVal
  outcome : Outcome
  finalResult : Option String

/-- Model of send_command (lines 62 to 90): clear any stale result, publish
the command, then poll for a result until the ticks run out. -/
def send_command (action : String) (args : Option PyVal) (timeoutStr : String)
    (initialResult : Option String) (events : List (Option String)) : SendResult :=
  let res0 := clearStaleResult initialResult
  let cmd := mkCommand action args
  let pr := pollForResult timeoutStr events res0
  { command := cmd, outcome := pr.1, finalResult := pr.2 }

/-! ### The synchronous command facade

Each cmd_* function is modelled by the pure function it applies to the
Result value send_command returned. Printing becomes lists of stdout and
stderr lines, sys.exit becomes the exit code, and an uncaught Python
exception becomes the error branch of Except. -/

/-- The observable effect of one facade command run: its printed lines and
the exit code it signals. -/
structure CmdOutput where
  stdout : List String
  stderr : List String
  exitCode : Nat
deriving DecidableEq

/-- Banker-rounding of a rational to an integer (ties to even), as Python
float formatting rounds. -/
def roundHalfEven (q : ℚ) : Int :=
  let f := ⌊q⌋
  let r := q - (f : ℚ)
  if r < 1 / 2 then f
  else if 1 / 2 < r then f + 1
  else if f % 2 = 0 then f else f + 1

/-- Python format spec .0f on a bridge value: defined for numbers, a
ValueError otherwise. -/
def formatNoDecimals : PyVal → Except String String
  | PyVal.int n => Except.ok (toString n)
  | PyVal.float q => Except.ok (toString (roundHalfEven q))
  | _ => Except.error "ValueError: unknown format code f"

/-- Result handling of cmd_screenshot (lines 93 to 101). -/
def cmd_screenshot_handle (result : PyVal) : Except String CmdOutput := do
  let succ ← pyGet result "success"
  if truthy succ then
    let data ← pyGet result "data"
    let path ← pyGet data "path"
    let size ← pyGet data "size"
    let w ← pyGet size "width"
    let h ← pyGet size "height"
    pure { stdout := ["Screenshot saved: " ++ pyStr path,
                      "Size: " ++ pyStr w ++ "x" ++ pyStr h],
           stderr := [], exitCode := 0 }
  else
    let msg ← pyGet result "message"
    pure { stdout := [], stderr := ["Failed: " ++ pyStr msg], exitCode := 1 }

/-- Result handling of cmd_set_state after the value coercion
(lines 201 to 210). -/
def cmd_set_state_handle (result : PyVal) : Except String CmdOutput := do
  let succ ← pyGet result "success"
  if truthy succ then
    pure { stdout := ["State updated"], stderr := [], exitCode := 0 }
  else
    let msg ← pyGet result "message"
    pure { stdout := [], stderr := ["Failed: " ++ pyStr msg], exitCode := 1 }

/-- Result handling of cmd_ping when a result arrived (lines 269 to 274):
note that on a failed result it prints a fixed notice, not the message the
result carries. -/
def cmd_ping_handle (result : PyVal) : Except String CmdOutput := do
  let succ ← pyGet result "success"
  if truthy succ then
    let data ← pyGet result "data"
    let ts ← pyGet data "timestamp"
    let tsStr ← formatNoDecimals ts
    pure { stdout := ["DevTools is running (timestamp: " ++ tsStr ++ ")"],
           stderr := [], exitCode := 0 }
  else
    pure { stdout := ["DevTools responded but with error"], stderr := [], exitCode := 1 }

/-- The severity label mapping of print_validation_result (line 133). -/
def severityLabel : PyVal → String
  | PyVal.str "error" => "ERROR"
  | PyVal.str "warning" => "WARN"
  | PyVal.str "info" => "INFO"
  | _ => "???"

/-- One issue line printed by print_validation_result (lines 133 to 134). -/
def issueLine (issue : PyVal) : Except String String := do
  let sev ← pyGet issue "severity"
  let code ← pyGet issue "code"
  let msg ← pyGet issue "message"
  pure ("  [" ++ severityLabel sev ++ "] " ++ pyStr code ++ ": " ++ pyStr msg)

/-- The issue lines print_validation_result derives from the data field
(lines 126 to 138): a dict of issues groups them per scene, a list prints
them directly, anything else prints nothing. -/
def validationIssueLines (data : PyVal) : Except String (List String) := do
  let issues ← pyGetD data "issues" (PyVal.dict [])
  match issues with
  | PyVal.dict scenes => do
    let groups ← scenes.mapM (fun p => do
      match p.2 with
      | PyVal.list l => do
        let ls ← l.mapM issueLine
        pure (("\n" ++ p.1 ++ ":") :: ls)
      | _ => (Except.error "TypeError: scene issues are not a list" :
          Except String (List String)))
    pure groups.flatten
  | PyVal.list l => l.mapM issueLine
  | _ => pure ([] : List String)

/-- Model of print_validation_result (lines 119 to 141): the OK or FAIL
headline with the result message, then the issues from the data field,
printed whether or not the call succeeded, then exit 1 on failure. -/
def print_validation_result (result : PyVal) : Except String CmdOutput := do
  let succ ← pyGet result "success"
  let msg ← pyGet result "message"
  let head := (if truthy succ then "[OK] " else "[FAIL] ") ++ pyStr msg
  let data ← pyGetD result "data" (PyVal.dict [])
  let issueLines ← validationIssueLines data
  pure { stdout := head :: issueLines, stderr := [],
         exitCode := if truthy succ then 0 else 1 }

/-- Whether a facade run ended in failure: an uncaught exception, or a
nonzero exit code. -/
def signalsFailure (o : Except String CmdOutput) : Prop :=
  match o with
  | Except.error _ => True
  | Except.ok c => c.exitCode ≠ 0

/-- A synchronous facade command around its result handler: a timeout from
send_command is not caught anywhere in it, so it propagates (ends the
process with a traceback). -/
def run_sync_facade (handle : PyVal → Except String CmdOutput) :
    Outcome → Except String CmdOutput
  | Outcome.success v => handle v
  | Outcome.timeoutErr m => Except.error m

/-- cmd_screenshot over the send outcome. -/
def cmd_screenshot_run : Outcome → Except String CmdOutput :=
  run_sync_facade cmd_screenshot_handle

/-- cmd_set_state over the send outcome. -/
def cmd_set_state_run : Outcome → Except String CmdOutput :=
  run_sync_facade cmd_set_state_handle

/-- cmd_validate over the send outcome (it hands the result to
print_validation_result). -/
def cmd_validate_run : Outcome → Except String CmdOutput :=
  run_sync_facade print_validation_result

/-- cmd_ping over the send outcome (lines 266 to 277): it alone catches the
TimeoutError, but still exits 1 on it. -/
def cmd_ping_run : Outcome → Except String CmdOutput
  | Outcome.success v => cmd_ping_handle v
  | Outcome.timeoutErr _ =>
    Except.ok { stdout := ["No response - is the game running with DevTools autoload?"],
                stderr := [], exitCode := 1 }

/-- cmd_quit over the send outcome (lines 280 to 287): the result value is
never inspected, and a TimeoutError is caught and swallowed, completing
normally either way. -/
def cmd_quit_run : Outcome → Except String CmdOutput
  | Outcome.success _ =>
    Except.ok { stdout := ["Quit command sent"], stderr := [], exitCode := 0 }
  | Outcome.timeoutErr _ =>
    Except.ok { stdout := ["Quit command sent (no response expected)"],
                stderr := [], exitCode := 0 }

/-! ### The log reader: cmd_logs -/

/-- Python list slicing l[i:] with a signed start index. -/
def pySliceFrom (i : Int) {α : Type} (l : List α) : List α :=
  if i < 0 then l.drop (l.length - (-i).toNat)
  else l.drop (min i.toNat l.length)

/-- Python str.split on the newline separator: the segments between
newlines, empty segments kept, the empty string yielding one empty
segment. -/
def splitNlAux (acc : List Char) : List Char → List String
  | [] => [String.mk acc.reverse]
  | c :: rest =>
    if c == '\n' then String.mk acc.reverse :: splitNlAux [] rest
    else splitNlAux (c :: acc) rest

/-- Python content.split on a newline. -/
def splitNl (s : String) : List String :=
  splitNlAux [] s.toList

/-- The filtering stage of cmd_logs (lines 247 to 253): strip and split the
file into lines, keep lines containing the category pattern in either
quoting style when a category was requested (Python truthiness: an empty
category string requests nothing), then keep the last tail lines when a
nonzero tail was requested. -/
def filterLog (content : String) (category : Option String) (tail : Option Int) :
    List String :=
  let lines := splitNl (pyStrip content)
  let lines := match category with
    | Option.some c =>
      if c == "" then lines
      else lines.filter (fun l =>
        strOccursIn ("\"category\":\"" ++ c ++ "\"") l ||
        strOccursIn ("\"category\": \"" ++ c ++ "\"") l)
    | Option.none => lines
  match tail with
  | Option.some n => if n == 0 then lines else pySliceFrom (-n) lines
  | Option.none => lines

/-- The formatted line printed for one parsed log entry (lines 258 to 261).
The strftime-of-localtime rendering of the timestamp depends on the
timezone of the environment, so it is a parameter; it raises on a
non-numeric timestamp, hence the Except. -/
def formatLogEntry (fmtTime : PyVal → Except String String) (entry : PyVal) :
    Except String String := do
  let ts ← pyGet entry "timestamp"
  let tsStr ← fmtTime ts
  let cat ← pyGet entry "category"
  let msg ← pyGet entry "message"
  pure ("[" ++ tsStr ++ "] [" ++ pyStr cat ++ "] " ++ pyStr msg)

/-- The printing loop of cmd_logs (lines 255 to 263): each surviving line is
parsed on its own; a line that is not valid JSON is printed as raw text (the
JSONDecodeError handler); a line that parses but lacks an expected field
raises an uncaught error, ending the loop with the lines printed so far.
Returns the printed lines and the uncaught error, if one was raised. -/
def emitLines (fmtTime : PyVal → Except String String) :
    List String → List String × Option String
  | [] => ([], Option.none)
  | l :: rest =>
    match jsonLoads l with
    | Option.none =>
      (l :: (emitLines fmtTime rest).1, (emitLines fmtTime rest).2)
    | Option.some entry =>
      match formatLogEntry fmtTime entry with
      | Except.ok line =>
        (line :: (emitLines fmtTime rest).1, (emitLines fmtTime rest).2)
      | Except.error e => ([], Option.some e)

/-- Model of cmd_logs (lines 238 to 263) over the log-file contents (nothing
when the file does not exist): an absent file prints a notice and returns
normally; otherwise the filtered lines are printed. -/
def cmd_logs_run (fmtTime : PyVal → Except String String) (content : Option String)
    (category : Option String) (tail : Option Int) : List String × Option String :=
  match content with
  | Option.none => (["No logs found"], Option.none)
  | Option.some text => emitLines fmtTime (filterLog text category tail)

/-! ### The mailbox locator: get_user_data_path -/

/-- The three OS families distinguished by get_user_data_path. -/
inductive Platform where
  | win32
  | darwin
  | linux
deriving DecidableEq

/-- Failure to locate the mailbox: the configuration error of the design
(raised as a FileNotFoundError in the source). -/
inductive DevToolsError where
  | configurationError (msg : String)
deriving DecidableEq

/-- Python str.strip with the quote character: remove all leading and
trailing double quotes. -/
def stripQuotes (cs : List Char) : List Char :=
  ((cs.dropWhile (fun c => c == '"')).reverse.dropWhile (fun c => c == '"')).reverse

/-- Line scan of the project descriptor (lines 43 to 47): the first line
declaring the project name yields everything after the first equals sign,
whitespace-stripped then quote-stripped. -/
def findConfigName : List String → Option String
  | [] => Option.none
  | l :: rest =>
    if listStartsWith "config/name=".toList l.toList then
      Option.some (String.mk (stripQuotes (stripWsList
        (l.toList.drop "config/name=".toList.length))))
    else findConfigName rest

/-- The OS-specific base joined with the fixed subpath (lines 52 to 59),
before the project name is appended. Paths are modelled as segment lists;
the home directory and the APPDATA variable are inputs. -/
def platformBase (p : Platform) (home appdata : List String) : List String :=
  match p with
  | Platform.win32 => appdata ++ ["Godot", "app_userdata"]
  | Platform.darwin => home ++ ["Library", "Application Support", "Godot", "app_userdata"]
  | Platform.linux => home ++ [".local", "share", "godot", "app_userdata"]

/-- Model of get_user_data_path (lines 36 to 59). The descriptor argument is
the project.godot contents as lines, or nothing when the file does not
exist. Matching the source, a name that is absent or strips to the empty
string falls back to the project directory name. -/
def get_user_data_path (p : Platform) (home appdata : List String)
    (project_path : List String) (descriptor : Option (List String)) :
    Except DevToolsError (List String) :=
  match descriptor with
  | Option.none =>
    Except.error (DevToolsError.configurationError
      ("No project.godot found in " ++ String.intercalate "/" project_path))
  | Option.some fileLines =>
    let fromFile := match findConfigName fileLines with
      | Option.some s => s
      | Option.none => ""
    let project_name := if fromFile == "" then (project_path.getLast?).getD "" else fromFile
    Except.ok (platformBase p home appdata ++ [project_name])

/-! ### The asynchronous sequence initiator: cmd_input_sequence -/

/-- The command arguments and the wait-timeout passed to send_command by
cmd_input_sequence (lines 395 to 399). Python truthiness again: a zero
sequence timeout adds no timeout argument and falls back to the fixed 70
second wait. -/
def cmd_input_sequence_send (steps : List PyVal) (timeout : ℚ) : PyVal × ℚ :=
  let cmdArgs :=
    if timeout != 0 then
      PyVal.dict [("steps", PyVal.list steps), ("timeout", PyVal.float timeout)]
    else
      PyVal.dict [("steps", PyVal.list steps)]
  let waitTimeout := if timeout != 0 then timeout + 10 else 70
  (cmdArgs, waitTimeout)

/-! ### Lemmas about the polling loop -/

/-- When the loop returns a parsed result, the result file ends deleted and
the parsed value came from the carried file state or from a responder write
of the tick sequence. -/
theorem pollFor_success_source (evs : List (Option String)) :
    ∀ (res : Option String) (t : String) (v : PyVal) (fin : Option String),
    pollForResult t evs res = (Outcome.success v, fin) →
    fin = Option.none ∧
      ((∃ s, Option.some s ∈ evs ∧ jsonLoads s = Option.some v) ∨
       (∃ s, res = Option.some s ∧ jsonLoads s = Option.some v)) := by
  induction evs with
  | nil =>
    intro res t v fin h
    simp [pollForResult] at h
  | cons ev rest ih =>
    intro res t v fin h
    cases ev with
    | some s =>
      simp only [pollForResult, applyWrite] at h
      cases heq : jsonLoads s with
      | some v2 =>
        rw [heq] at h
        obtain ⟨h1, h2⟩ := Prod.mk.injEq .. ▸ h
        cases h1
        refine ⟨h2.symm ▸ rfl, Or.inl ⟨s, List.mem_cons_self .., heq⟩⟩
      | none =>
        rw [heq] at h
        obtain ⟨hfin, hsrc⟩ := ih (Option.some s) t v fin h
        refine ⟨hfin, Or.inl ?_⟩
        rcases hsrc with ⟨s2, hmem, hjl⟩ | ⟨s2, hres, hjl⟩
        · exact ⟨s2, List.mem_cons_of_mem _ hmem, hjl⟩
        · cases Option.some.injEq .. ▸ hres
          exact absurd hjl (by simp [heq])
    | none =>
      cases res with
      | none =>
        simp only [pollForResult, applyWrite] at h
        obtain ⟨hfin, hsrc⟩ := ih Option.none t v fin h
        refine ⟨hfin, ?_⟩
        rcases hsrc with ⟨s2, hmem, hjl⟩ | ⟨s2, hres, hjl⟩
        · exact Or.inl ⟨s2, List.mem_cons_of_mem _ hmem, hjl⟩
        · exact absurd hres (by simp)
      | some s =>
        simp only [pollForResult, applyWrite] at h
        cases heq : jsonLoads s with
        | some v2 =>
          rw [heq] at h
          obtain ⟨h1, h2⟩ := Prod.mk.injEq .. ▸ h
          cases h1
          exact ⟨h2.symm ▸ rfl, Or.inr ⟨s, rfl, heq⟩⟩
        | none =>
          rw [heq] at h
          obtain ⟨hfin, hsrc⟩ := ih (Option.some s) t v fin h
          refine ⟨hfin, ?_⟩
          rcases hsrc with ⟨s2, hmem, hjl⟩ | ⟨s2, hres, hjl⟩
          · exact Or.inl ⟨s2, List.mem_cons_of_mem _ hmem, hjl⟩
          · cases Option.some.injEq .. ▸ hres
            exact absurd hjl (by simp [heq])

/-- When every responder write so far fails to parse and the carried file
state does too, a later write of valid JSON makes the loop succeed with that
parsed value and consume the file. -/
theorem pollFor_recovers (evs1 : List (Option String)) :
    ∀ (res : Option String) (good : String) (v : PyVal)
      (rest : List (Option String)) (t : String),
    (∀ s, Option.some s ∈ evs1 → jsonLoads s = Option.none) →
    (∀ s, res = Option.some s → jsonLoads s = Option.none) →
    jsonLoads good = Option.some v →
    pollForResult t (evs1 ++ Option.some good :: rest) res =
      (Outcome.success v, Option.none) := by
  induction evs1 with
  | nil =>
    intro res good v rest t _ _ hgood
    simp [pollForResult, applyWrite, hgood]
  | cons ev evs1 ih =>
    intro res good v rest t h1 h2 hgood
    cases ev with
    | some s =>
      have hs : jsonLoads s = Option.none := h1 s (List.mem_cons_self ..)
      simp only [List.cons_append, pollForResult, applyWrite, hs]
      exact ih (Option.some s) good v rest t
        (fun s2 hmem => h1 s2 (List.mem_cons_of_mem _ hmem))
        (fun s2 he => by cases Option.some.injEq .. ▸ he; exact hs) hgood
    | none =>
      cases res with
      | none =>
        simp only [List.cons_append, pollForResult, applyWrite]
        exact ih Option.none good v rest t
          (fun s2 hmem => h1 s2 (List.mem_cons_of_mem _ hmem))
          (fun s2 he => by cases he) hgood
      | some s =>
        have hs : jsonLoads s = Option.none := h2 s rfl
        simp only [List.cons_append, pollForResult, applyWrite, hs]
        exact ih (Option.some s) good v rest t
          (fun s2 hmem => h1 s2 (List.mem_cons_of_mem _ hmem))
          (fun s2 he => by cases Option.some.injEq .. ▸ he; exact hs) hgood

/-- When no responder write and no carried file state ever parses, the loop
raises the timeout error and the final file state is exactly the writes
folded over the initial state: nothing was deleted along the way. -/
theorem pollFor_times_out (evs : List (Option String)) :
    ∀ (res : Option String) (t : String),
    (∀ s, Option.some s ∈ evs → jsonLoads s = Option.none) →
    (∀ s, res = Option.some s → jsonLoads s = Option.none) →
    pollForResult t evs res =
      (Outcome.timeoutErr (timeoutMessage t), evs.foldl applyWrite res) := by
  induction evs with
  | nil =>
    intro res t _ _
    simp [pollForResult]
  | cons ev rest ih =>
    intro res t h1 h2
    cases ev with
    | some s =>
      have hs : jsonLoads s = Option.none := h1 s (List.mem_cons_self ..)
      simp only [pollForResult, applyWrite, hs, List.foldl_cons]
      exact ih (Option.some s) t
        (fun s2 hmem => h1 s2 (List.mem_cons_of_mem _ hmem))
        (fun s2 he => by cases Option.some.injEq .. ▸ he; exact hs)
    | none =>
      cases res with
      | none =>
        simp only [pollForResult, applyWrite, List.foldl_cons]
        exact ih Option.none t
          (fun s2 hmem => h1 s2 (List.mem_cons_of_mem _ hmem))
          (fun s2 he => by cases he)
      | some s =>
        have hs : jsonLoads s = Option.none := h2 s rfl
        simp only [pollForResult, applyWrite, hs, List.foldl_cons]
        exact ih (Option.some s) t
          (fun s2 hmem => h1 s2 (List.mem_cons_of_mem _ hmem))
          (fun s2 he => by cases Option.some.injEq .. ▸ he; exact hs)

/-! ### Lemmas about substring containment -/

theorem listStartsWith_self_append (l r : List Char) :
    listStartsWith l (l ++ r) = true := by
  induction l with
  | nil => rfl
  | cons c t ih => simp [listStartsWith, ih]

theorem listOccursIn_of_startsWith (l h : List Char) :
    listStartsWith l h = true → listOccursIn l h = true := by
  cases h with
  | nil =>
    cases l with
    | nil => intro _; rfl
    | cons c t => intro hf; cases hf
  | cons c t => intro hs; simp [listOccursIn, hs]

theorem listOccursIn_cons (l : List Char) (c : Char) (h : List Char) :
    listOccursIn l h = true → listOccursIn l (c :: h) = true := by
  intro hi
  simp [listOccursIn, hi]

theorem listOccursIn_append_left (pre l suf : List Char) :
    listOccursIn l (pre ++ (l ++ suf)) = true := by
  induction pre with
  | nil => exact listOccursIn_of_startsWith l (l ++ suf) (listStartsWith_self_append l suf)
  | cons c t ih => exact listOccursIn_cons _ c _ ih

/-- A string occurs in any concatenation that embeds it. -/
theorem strOccursIn_append (a t b : String) : strOccursIn t (a ++ t ++ b) = true := by
  show listOccursIn t.toList (a ++ t ++ b).toList = true
  have h1 : (a ++ t ++ b).toList = a.toList ++ (t.toList ++ b.toList) := by
    show (a ++ t ++ b).data = a.data ++ (t.data ++ b.data)
    simp [String.data_append]
  rw [h1]
  exact listOccursIn_append_left a.toList t.toList b.toList

/-- The timeout message always embeds the interpolated timeout value. -/
theorem timeoutMessage_carries_timeout (t : String) :
    strOccursIn t (timeoutMessage t) = true :=
  strOccursIn_append "No response from Godot after " t "s. Is the game running with DevTools?"

/-- Unfolding of send_command: the stale result is cleared, so the poll loop
always starts from an absent result file, whatever the file held before. -/
theorem send_command_eq (action : String) (args : Option PyVal) (t : String)
    (init : Option String) (evs : List (Option String)) :
    send_command action args t init evs =
      { command := mkCommand action args,
        outcome := (pollForResult t evs Option.none).1,
        finalResult := (pollForResult t evs Option.none).2 } := by
  have hclear : clearStaleResult init = Option.none := by cases init <;> rfl
  simp [send_command, hclear]

/-! ### The claims -/

/-- C1: every send_command call deletes a pre-existing result file before
publishing its command (the cleared state is absent whatever the file held),
so a successful call only ever returns JSON some responder write of this
call carried, never the pre-existing contents, and consumes the result file
it read, leaving no unconsumed result behind. -/
theorem claim_c1_stale_cleared_never_returned (action : String) (args : Option PyVal)
    (t : String) (init : Option String) (evs : List (Option String)) (v : PyVal)
    (h : (send_command action args t init evs).outcome = Outcome.success v) :
    clearStaleResult init = Option.none ∧
    (∃ s, Option.some s ∈ evs ∧ jsonLoads s = Option.some v) ∧
    (send_command action args t init evs).finalResult = Option.none := by
  have hclear : clearStaleResult init = Option.none := by cases init <;> rfl
  rw [send_command_eq] at h ⊢
  have hpair : pollForResult t evs Option.none =
      (Outcome.success v, (pollForResult t evs Option.none).2) := by
    rw [← h]
  obtain ⟨hfin, hsrc⟩ := pollFor_success_source evs Option.none t v _ hpair
  refine ⟨hclear, ?_, hfin⟩
  rcases hsrc with hgood | ⟨s, hbad, _⟩
  · exact hgood
  · cases hbad

/-- Witness for C1 at a concrete run: the result file holds stale contents
when the call starts, the responder answers on the second tick, and the call
returns that answer with the result file consumed. -/
theorem claim_c1_witness :
    (send_command "ping" Option.none "5.0" (Option.some "stale")
        [Option.none, Option.some "\x7b\"success\": true\x7d"]).outcome =
      Outcome.success (PyVal.dict [("success", PyVal.bool true)]) ∧
    (clearStaleResult (Option.some "stale") = Option.none ∧
     (∃ s, Option.some s ∈ [Option.none, Option.some "\x7b\"success\": true\x7d"] ∧
       jsonLoads s = Option.some (PyVal.dict [("success", PyVal.bool true)])) ∧
     (send_command "ping" Option.none "5.0" (Option.some "stale")
        [Option.none, Option.some "\x7b\"success\": true\x7d"]).finalResult = Option.none) :=
  ⟨rfl, claim_c1_stale_cleared_never_returned "ping" Option.none "5.0"
    (Option.some "stale") [Option.none, Option.some "\x7b\"success\": true\x7d"]
    (PyVal.dict [("success", PyVal.bool true)]) rfl⟩

/-- C2: a poll tick whose result file fails to parse does not fail the call:
the loop keeps the file and continues (first conjunct, the per-tick step);
and whenever every earlier responder write is unparseable but a later write
is valid JSON, the call succeeds with the parsed value and deletes the file
(second conjunct). -/
theorem claim_c2_parse_failure_retried (action : String) (args : Option PyVal)
    (t : String) (init : Option String) (evs1 : List (Option String))
    (good : String) (v : PyVal) (rest : List (Option String))
    (hbad : ∀ s, Option.some s ∈ evs1 → jsonLoads s = Option.none)
    (hgood : jsonLoads good = Option.some v) :
    (∀ s rest2 res, jsonLoads s = Option.none →
      pollForResult t (Option.some s :: rest2) res = pollForResult t rest2 (Option.some s)) ∧
    (send_command action args t init (evs1 ++ Option.some good :: rest)).outcome =
      Outcome.success v ∧
    (send_command action args t init (evs1 ++ Option.some good :: rest)).finalResult =
      Option.none := by
  refine ⟨fun s rest2 res hs => by simp [pollForResult, applyWrite, hs], ?_, ?_⟩ <;>
    rw [send_command_eq] <;>
    rw [pollFor_recovers evs1 Option.none good v rest t hbad (fun s he => by cases he) hgood]

/-- Witness for C2 at a concrete run: the responder first writes a
truncated, unparseable file, then overwrites it with valid JSON; the call
succeeds with the parsed result. -/
theorem claim_c2_witness :
    (∀ s, Option.some s ∈ [Option.some "\x7b\"succ"] → jsonLoads s = Option.none) ∧
    jsonLoads "\x7b\"success\": false\x7d" = Option.some (PyVal.dict [("success", PyVal.bool false)]) ∧
    (send_command "screenshot" Option.none "30.0" Option.none
        ([Option.some "\x7b\"succ"] ++ Option.some "\x7b\"success\": false\x7d" :: [])).outcome =
      Outcome.success (PyVal.dict [("success", PyVal.bool false)]) := by
  have hbad : ∀ s, Option.some s ∈ [Option.some "\x7b\"succ"] → jsonLoads s = Option.none := by
    intro s hs
    rw [List.mem_singleton] at hs
    cases Option.some.injEq .. ▸ hs
    rfl
  exact ⟨hbad, rfl,
    (claim_c2_parse_failure_retried "screenshot" Option.none "30.0" Option.none
      [Option.some "\x7b\"succ"] "\x7b\"success\": false\x7d"
      (PyVal.dict [("success", PyVal.bool false)]) [] hbad rfl).2.1⟩

/-- C3 counterexample: at a concrete timed-out call with action ping, the
raised error is the timeout error, but its message does not carry the action
name anywhere, refuting the claim that the error carries both the elapsed
timeout value and the action name. -/
theorem claim_c3_counterexample :
    (send_command "ping" Option.none "5.0" Option.none [Option.none]).outcome =
      Outcome.timeoutErr (timeoutMessage "5.0") ∧
    strOccursIn "ping" (timeoutMessage "5.0") = false :=
  ⟨rfl, rfl⟩

/-- C3 as amended: when no parseable result ever appears, the call fails
with the timeout error, whose message carries the elapsed timeout value (but
not the action name), and no result file is deleted on this path: the final
file state is exactly the responder writes folded over the cleared initial
state. -/
theorem claim_c3_timeout_error (action : String) (args : Option PyVal) (t : String)
    (init : Option String) (evs : List (Option String))
    (hnone : ∀ s, Option.some s ∈ evs → jsonLoads s = Option.none) :
    (send_command action args t init evs).outcome = Outcome.timeoutErr (timeoutMessage t) ∧
    strOccursIn t (timeoutMessage t) = true ∧
    (send_command action args t init evs).finalResult = evs.foldl applyWrite Option.none := by
  refine ⟨?_, timeoutMessage_carries_timeout t, ?_⟩ <;>
    rw [send_command_eq] <;>
    rw [pollFor_times_out evs Option.none t hnone (fun s he => by cases he)]

/-- Witness for C3 as amended: a run where the responder writes only an
unparseable file; the call times out and the unparseable file is left in
place, not deleted. -/
theorem claim_c3_witness :
    (∀ s, Option.some s ∈ [Option.some "notjson", Option.none] → jsonLoads s = Option.none) ∧
    (send_command "ping" Option.none "5.0" Option.none
        [Option.some "notjson", Option.none]).outcome =
      Outcome.timeoutErr (timeoutMessage "5.0") ∧
    strOccursIn "5.0" (timeoutMessage "5.0") = true ∧
    (send_command "ping" Option.none "5.0" Option.none
        [Option.some "notjson", Option.none]).finalResult =
      [Option.some "notjson", Option.none].foldl applyWrite Option.none := by
  have hnone : ∀ s, Option.some s ∈ [Option.some "notjson", Option.none] →
      jsonLoads s = Option.none := by
    intro s hs
    rcases List.mem_cons.mp hs with h | h
    · cases Option.some.injEq .. ▸ h
      rfl
    · rw [List.mem_singleton] at h
      cases h
  exact ⟨hnone, claim_c3_timeout_error "ping" Option.none "5.0" Option.none
    [Option.some "notjson", Option.none] hnone⟩

/-- C4: the state-setter coerces the user-supplied value string by trying a
JSON parse, then an integer parse, then a float parse, keeping the string
when all fail (the four order conjuncts), and on the spec examples: 42
becomes the integer, 3.14 the float, a quoted 42 the bare string, true the
boolean, hello stays a string; a leading plus sign exercises the integer and
float fallback branches, which JSON rejects. -/
theorem claim_c4_value_coercion :
    (∀ s v, jsonLoads s = Option.some v → coerceValue s = v) ∧
    (∀ s n, jsonLoads s = Option.none → pyInt s = Option.some n →
      coerceValue s = PyVal.int n) ∧
    (∀ s q, jsonLoads s = Option.none → pyInt s = Option.none →
      pyFloat s = Option.some q → coerceValue s = PyVal.float q) ∧
    (∀ s, jsonLoads s = Option.none → pyInt s = Option.none →
      pyFloat s = Option.none → coerceValue s = PyVal.str s) ∧
    coerceValue "42" = PyVal.int 42 ∧
    coerceValue "3.14" = PyVal.float (157 / 50) ∧
    coerceValue "\"42\"" = PyVal.str "42" ∧
    coerceValue "true" = PyVal.bool true ∧
    coerceValue "hello" = PyVal.str "hello" ∧
    coerceValue "+7" = PyVal.int 7 ∧
    coerceValue "+7.5" = PyVal.float (15 / 2) := by
  refine ⟨?_, ?_, ?_, ?_, rfl, ?_, rfl, rfl, rfl, rfl, ?_⟩
  · intro s v h
    simp [coerceValue, h]
  · intro s n h1 h2
    simp [coerceValue, h1, h2]
  · intro s q h1 h2 h3
    simp [coerceValue, h1, h2, h3]
  · intro s h1 h2 h3
    simp [coerceValue, h1, h2, h3]
  · show coerceValue "3.14" = PyVal.float (157 / 50)
    have h1 : coerceValue "3.14" = PyVal.float (scaleByPow10 314 (-2)) := rfl
    have h2 : scaleByPow10 314 (-2) = 157 / 50 := by norm_num [scaleByPow10, Int.toNat]
    rw [h1, h2]
  · show coerceValue "+7.5" = PyVal.float (15 / 2)
    have h1 : coerceValue "+7.5" = PyVal.float (scaleByPow10 75 (-1)) := rfl
    have h2 : scaleByPow10 75 (-1) = 15 / 2 := by norm_num [scaleByPow10]
    rw [h1, h2]

/-- C5 counterexample: the claim fails on two facade commands. On a failed
result carrying the message boom, cmd_ping prints a fixed notice that does
not contain the message; and print_validation_result, on two failed results
that differ only in their data field, prints different output, so it does
inspect data when success is false. -/
theorem claim_c5_counterexample :
    cmd_ping_handle (PyVal.dict [("success", PyVal.bool false), ("message", PyVal.str "boom")]) =
      Except.ok { stdout := ["DevTools responded but with error"], stderr := [], exitCode := 1 } ∧
    strOccursIn "boom" "DevTools responded but with error" = false ∧
    print_validation_result (PyVal.dict [("success", PyVal.bool false),
        ("message", PyVal.str "m"),
        ("data", PyVal.dict [("issues", PyVal.list [])])]) =
      Except.ok { stdout := ["[FAIL] m"], stderr := [], exitCode := 1 } ∧
    print_validation_result (PyVal.dict [("success", PyVal.bool false),
        ("message", PyVal.str "m"),
        ("data", PyVal.dict [("issues", PyVal.list [PyVal.dict
          [("severity", PyVal.str "error"), ("code", PyVal.str "E1"),
           ("message", PyVal.str "bad")]])])]) =
      Except.ok { stdout := ["[FAIL] m", "  [ERROR] E1: bad"], stderr := [], exitCode := 1 } ∧
    ({ stdout := ["[FAIL] m"], stderr := [], exitCode := 1 } : CmdOutput) ≠
      { stdout := ["[FAIL] m", "  [ERROR] E1: bad"], stderr := [], exitCode := 1 } :=
  ⟨rfl, rfl, rfl, rfl, by decide⟩

/-- C5 as amended: on a failed result, the uniform facade handlers
(screenshot, set-state) report the result message on stderr and exit 1,
and their output depends on nothing but the message, so data is never
inspected; cmd_ping exits 1 but prints a fixed notice instead of the
message; the validation printer reports the FAIL headline with the message
and exits 1, though it also prints issue details taken from data. -/
theorem claim_c5_failure_reporting (r s m : PyVal)
    (hs : pyGet r "success" = Except.ok s) (hfalse : truthy s = false)
    (hm : pyGet r "message" = Except.ok m) :
    cmd_screenshot_handle r =
      Except.ok { stdout := [], stderr := ["Failed: " ++ pyStr m], exitCode := 1 } ∧
    cmd_set_state_handle r =
      Except.ok { stdout := [], stderr := ["Failed: " ++ pyStr m], exitCode := 1 } ∧
    cmd_ping_handle r =
      Except.ok { stdout := ["DevTools responded but with error"], stderr := [], exitCode := 1 } ∧
    (∀ o, print_validation_result r = Except.ok o →
      o.exitCode = 1 ∧ o.stdout.head? = Option.some ("[FAIL] " ++ pyStr m)) := by
  refine ⟨?_, ?_, ?_, ?_⟩
  · simp [cmd_screenshot_handle, hs, hfalse, hm, Bind.bind, Except.bind, pure, Except.pure]
  · simp [cmd_set_state_handle, hs, hfalse, hm, Bind.bind, Except.bind, pure, Except.pure]
  · simp [cmd_ping_handle, hs, hfalse, Bind.bind, Except.bind, pure, Except.pure]
  · intro o ho
    simp only [print_validation_result, hs, hfalse, hm, Bind.bind, Except.bind,
      Bool.false_eq_true, if_false] at ho
    cases hdata : pyGetD r "data" (PyVal.dict []) with
    | error e =>
      rw [hdata] at ho
      simp at ho
    | ok data =>
      rw [hdata] at ho
      dsimp only at ho
      cases hlines : validationIssueLines data with
      | error e =>
        rw [hlines] at ho
        simp at ho
      | ok ls =>
        rw [hlines] at ho
        simp only [pure, Except.pure, Except.ok.injEq] at ho
        rw [← ho]
        exact ⟨rfl, rfl⟩

/-- Witness for C5 as amended at a concrete failed result. -/
theorem claim_c5_witness :
    pyGet (PyVal.dict [("success", PyVal.bool false), ("message", PyVal.str "boom")])
        "success" = Except.ok (PyVal.bool false) ∧
    truthy (PyVal.bool false) = false ∧
    pyGet (PyVal.dict [("success", PyVal.bool false), ("message", PyVal.str "boom")])
        "message" = Except.ok (PyVal.str "boom") ∧
    cmd_screenshot_handle (PyVal.dict [("success", PyVal.bool false), ("message", PyVal.str "boom")]) =
      Except.ok { stdout := [], stderr := ["Failed: boom"], exitCode := 1 } :=
  ⟨rfl, rfl, rfl,
    (claim_c5_failure_reporting
      (PyVal.dict [("success", PyVal.bool false), ("message", PyVal.str "boom")])
      (PyVal.bool false) (PyVal.str "boom") rfl rfl rfl).1⟩

/-- Example log lines for the log-reader claims: five entries with
categories A, B, A, C, A, the third one in the compact quoting style. -/
def exLogLine1 : String :=
  "\x7b\"timestamp\": 1, \"category\": \"A\", \"message\": \"m1\"\x7d"

def exLogLine2 : String :=
  "\x7b\"timestamp\": 2, \"category\": \"B\", \"message\": \"m2\"\x7d"

def exLogLine3 : String :=
  "\x7b\"timestamp\":3,\"category\":\"A\",\"message\":\"m3\"\x7d"

def exLogLine4 : String :=
  "\x7b\"timestamp\": 4, \"category\": \"C\", \"message\": \"m4\"\x7d"

def exLogLine5 : String :=
  "\x7b\"timestamp\": 5, \"category\": \"A\", \"message\": \"m5\"\x7d"

/-- The example log file contents: the five lines, newline-delimited. -/
def exLogContent : String :=
  exLogLine1 ++ "\n" ++ exLogLine2 ++ "\n" ++ exLogLine3 ++ "\n" ++
    exLogLine4 ++ "\n" ++ exLogLine5

/-- C6: on five log lines with categories A, B, A, C, A, the category filter
runs before the tail restriction and order is preserved: filtering by A
alone keeps the three A lines in order, and tail 2 after the A filter yields
exactly the last two of those three, in original order (matching both
quoting styles); an absent log file yields no entries and no error, only the
no-logs notice. -/
theorem claim_c6_log_filter_order :
    filterLog exLogContent (Option.some "A") Option.none =
      [exLogLine1, exLogLine3, exLogLine5] ∧
    filterLog exLogContent (Option.some "A") (Option.some 2) =
      [exLogLine3, exLogLine5] ∧
    cmd_logs_run (fun _ => Except.ok "00:00:00") Option.none
        (Option.some "A") (Option.some 2) =
      (["No logs found"], Option.none) :=
  ⟨rfl, rfl, rfl⟩

/-- C7 counterexample: invoked with the per-sequence timeout 0 (a value the
float-typed option accepts), the wait-timeout is the fallback 70, not
0 + 10, and no timeout argument is included in the command, refuting the
claim for that invocation: Python truthiness drops a zero timeout. -/
theorem claim_c7_counterexample :
    (cmd_input_sequence_send [] 0).2 = 70 ∧
    (cmd_input_sequence_send [] 0).2 ≠ 0 + 10 ∧
    dictHasKey (cmd_input_sequence_send [] 0).1 "timeout" = false := by
  refine ⟨rfl, ?_, rfl⟩
  intro h
  rw [show (cmd_input_sequence_send [] 0).2 = 70 from rfl] at h
  norm_num at h

/-- C7 as amended: for every nonzero per-sequence timeout, the wait-timeout
handed to send_command is the sequence timeout plus the fixed 10-second
grace margin, and the sequence timeout is included in the command arguments
under the timeout key. -/
theorem claim_c7_sequence_timeout (steps : List PyVal) (t : ℚ) (ht : t ≠ 0) :
    (cmd_input_sequence_send steps t).2 = t + 10 ∧
    dictHasKey (cmd_input_sequence_send steps t).1 "timeout" = true ∧
    pyGet (cmd_input_sequence_send steps t).1 "timeout" = Except.ok (PyVal.float t) := by
  simp [cmd_input_sequence_send, ht, dictHasKey, pyGet]

/-- Witness for C7 as amended at the default sequence timeout of 60. -/
theorem claim_c7_witness :
    (60 : ℚ) ≠ 0 ∧
    (cmd_input_sequence_send [] 60).2 = 60 + 10 ∧
    dictHasKey (cmd_input_sequence_send [] 60).1 "timeout" = true :=
  ⟨by norm_num,
    (claim_c7_sequence_timeout [] 60 (by norm_num)).1,
    (claim_c7_sequence_timeout [] 60 (by norm_num)).2.1⟩

/-- C8 counterexample: a descriptor declaring an empty quoted project name.
The key is found and its quote-stripped value is the empty string, yet the
returned path ends in the root directory name, not in that value, refuting
the claim that the found key value is always used. -/
theorem claim_c8_counterexample :
    findConfigName ["config/name=\"\""] = Option.some "" ∧
    get_user_data_path Platform.linux ["home", "u"] [] ["home", "u", "myproj"]
        (Option.some ["config/name=\"\""]) =
      Except.ok ["home", "u", ".local", "share", "godot", "app_userdata", "myproj"] ∧
    (["home", "u", ".local", "share", "godot", "app_userdata", "myproj"] : List String) ≠
      ["home", "u", ".local", "share", "godot", "app_userdata", ""] :=
  ⟨rfl, rfl, by decide⟩

/-- C8 as amended: the locator fails with the configuration error when no
descriptor exists; when the scan finds a project name whose stripped value
is nonempty it is used as the final path segment; when the key is absent, or
its value strips to empty, the root directory name is used instead. The
result is a pure function of the inputs and platform by construction. -/
theorem claim_c8_mailbox_locator (p : Platform) (home appdata project_path : List String)
    (fileLines : List String) :
    (get_user_data_path p home appdata project_path Option.none =
      Except.error (DevToolsError.configurationError
        ("No project.godot found in " ++ String.intercalate "/" project_path))) ∧
    (∀ v, findConfigName fileLines = Option.some v → v ≠ "" →
      get_user_data_path p home appdata project_path (Option.some fileLines) =
        Except.ok (platformBase p home appdata ++ [v])) ∧
    ((findConfigName fileLines = Option.none ∨ findConfigName fileLines = Option.some "") →
      get_user_data_path p home appdata project_path (Option.some fileLines) =
        Except.ok (platformBase p home appdata ++ [(project_path.getLast?).getD ""])) := by
  refine ⟨rfl, ?_, ?_⟩
  · intro v hv hne
    simp [get_user_data_path, hv, hne]
  · intro hcase
    rcases hcase with h | h <;> simp [get_user_data_path, h]

/-- C9 counterexample: a log line that is valid JSON but lacks the expected
fields raises an uncaught KeyError, so a following line that fails to parse
is never emitted at all: the reader does drop surviving unparseable lines on
such content, refuting the claim for every input. -/
theorem claim_c9_counterexample :
    jsonLoads "notjson" = Option.none ∧
    (emitLines (fun _ => Except.ok "00:00:00") ["\x7b\"a\": 1\x7d", "notjson"]).1 = [] ∧
    (emitLines (fun _ => Except.ok "00:00:00") ["\x7b\"a\": 1\x7d", "notjson"]).2 =
      Option.some "KeyError: timestamp" :=
  ⟨rfl, rfl, rfl⟩

/-- C9 as amended: as long as every line that parses as JSON is an entry the
formatter accepts (it has the three expected fields with a formattable
timestamp), the reader finishes without error, emits exactly one output line
per input line, and every line that fails to parse is emitted verbatim at
its own position, so no data is lost. -/
theorem claim_c9_raw_lines_kept (f : PyVal → Except String String) (lines : List String)
    (h : ∀ l, l ∈ lines → jsonLoads l = Option.none ∨
      ∃ e out, jsonLoads l = Option.some e ∧ formatLogEntry f e = Except.ok out) :
    (emitLines f lines).2 = Option.none ∧
    (emitLines f lines).1.length = lines.length ∧
    (∀ i l2, lines.get? i = Option.some l2 → jsonLoads l2 = Option.none →
      (emitLines f lines).1.get? i = Option.some l2) := by
  induction lines with
  | nil => exact ⟨rfl, rfl, fun i l2 hi => by cases hi⟩
  | cons l rest ih =>
    obtain ⟨ih1, ih2, ih3⟩ := ih (fun l2 hm => h l2 (List.mem_cons_of_mem _ hm))
    rcases h l (List.mem_cons_self ..) with hnone | ⟨e, out, hsome, hfmt⟩
    · refine ⟨?_, ?_, ?_⟩
      · simp only [emitLines, hnone]
        exact ih1
      · simp only [emitLines, hnone, List.length_cons]
        rw [ih2]
      · intro i l2 hi hl2
        cases i with
        | zero =>
          simp only [List.get?] at hi
          cases hi
          simp [emitLines, hnone]
        | succ j =>
          simp only [List.get?] at hi
          simp only [emitLines, hnone, List.get?]
          exact ih3 j l2 hi hl2
    · refine ⟨?_, ?_, ?_⟩
      · simp only [emitLines, hsome, hfmt]
        exact ih1
      · simp only [emitLines, hsome, hfmt, List.length_cons]
        rw [ih2]
      · intro i l2 hi hl2
        cases i with
        | zero =>
          simp only [List.get?] at hi
          cases hi
          rw [hsome] at hl2
          cases hl2
        | succ j =>
          simp only [List.get?] at hi
          simp only [emitLines, hsome, hfmt, List.get?]
          exact ih3 j l2 hi hl2

/-- Witness for C9 as amended: one unparseable line followed by one
well-formed entry; nothing errors, the raw line is emitted first. -/
theorem claim_c9_witness :
    (∀ l, l ∈ ["notjson", exLogLine1] → jsonLoads l = Option.none ∨
      ∃ e out, jsonLoads l = Option.some e ∧
        formatLogEntry (fun _ => Except.ok "00:00:01") e = Except.ok out) ∧
    (emitLines (fun _ => Except.ok "00:00:01") ["notjson", exLogLine1]).2 = Option.none ∧
    (emitLines (fun _ => Except.ok "00:00:01") ["notjson", exLogLine1]).1.length = 2 := by
  have h : ∀ l, l ∈ ["notjson", exLogLine1] → jsonLoads l = Option.none ∨
      ∃ e out, jsonLoads l = Option.some e ∧
        formatLogEntry (fun _ => Except.ok "00:00:01") e = Except.ok out := by
    intro l hl
    rcases List.mem_cons.mp hl with h1 | h1
    · subst h1
      exact Or.inl rfl
    · rw [List.mem_singleton] at h1
      subst h1
      exact Or.inr ⟨PyVal.dict [("timestamp", PyVal.int 1), ("category", PyVal.str "A"),
        ("message", PyVal.str "m1")], "[00:00:01] [A] m1", rfl, rfl⟩
  refine ⟨h, ?_, ?_⟩
  · exact (claim_c9_raw_lines_kept (fun _ => Except.ok "00:00:01") ["notjson", exLogLine1] h).1
  · rw [(claim_c9_raw_lines_kept (fun _ => Except.ok "00:00:01") ["notjson", exLogLine1] h).2.1]
    rfl

/-- C10: a timeout in cmd_quit is caught and swallowed, the command prints
its notice and completes normally with exit code 0; every other synchronous
facade command turns a timeout into a failure: the uniform facades let the
TimeoutError propagate uncaught, and cmd_ping, though it catches the error,
still exits 1. -/
theorem claim_c10_quit_swallows_timeout (m : String) :
    cmd_quit_run (Outcome.timeoutErr m) =
      Except.ok { stdout := ["Quit command sent (no response expected)"],
                  stderr := [], exitCode := 0 } ∧
    ¬ signalsFailure (cmd_quit_run (Outcome.timeoutErr m)) ∧
    (∀ handle, signalsFailure (run_sync_facade handle (Outcome.timeoutErr m))) ∧
    signalsFailure (cmd_screenshot_run (Outcome.timeoutErr m)) ∧
    signalsFailure (cmd_set_state_run (Outcome.timeoutErr m)) ∧
    signalsFailure (cmd_validate_run (Outcome.timeoutErr m)) ∧
    signalsFailure (cmd_ping_run (Outcome.timeoutErr m)) := by
  refine ⟨rfl, ?_, fun handle => trivial, trivial, trivial, trivial, ?_⟩
  · intro hf
    simp [cmd_quit_run, signalsFailure] at hf
  · show (1 : Nat) ≠ 0
    norm_num

end DevTools
